import Mathlib

/-!
Verification of the PyCraftingCalculator core against its specification.

The Python sources are shallowly embedded: Python ints become `Int`,
float chances become exact unnormalized fractions (`PyFloat`; all
claim-relevant chance arithmetic — chances 0 and 1 and the craft-count
ceiling — is exact and robust to float rounding), dicts become
association lists in insertion order, and raised exceptions become an
error type threaded through the results.  One embedding
(`calculate_cost`) treats ItemStacks as values; a second
(`calculate_cost_heap`) models Python's object references to settle
the frame/aliasing claim.
-/

set_option autoImplicit false

namespace CraftCalc

/-! ### src/item.py

`@dataclass(unsafe_hash=True, order=True)` with fields
`name`, `metadata`, `proper_name (compare=False)`, `metadata_any`.
The generated `__eq__`/`__lt__` compare the tuple of compare-enabled
fields in declaration order: `(name, metadata, metadata_any)`
(`proper_name` is excluded; `metadata_any` has `hash=False` only, so it
does participate in comparison). -/

structure Item where
  name : String
  metadata : Int := 0
  proper_name : Option String := none
  metadata_any : Bool := false
deriving DecidableEq

/-- Python dataclass `Item.__eq__`: tuple equality over the
compare-enabled fields `(name, metadata, metadata_any)`. -/
def itemEq (a b : Item) : Bool :=
  a.name == b.name && a.metadata == b.metadata && a.metadata_any == b.metadata_any

/-- Python `bool` ordering: `False < True`. -/
def boolLt (a b : Bool) : Bool := !a && b

/-- Python `str` comparison, lexicographic on code points. -/
def strLtAux : List Char → List Char → Bool
  | [], [] => false
  | [], _ :: _ => true
  | _ :: _, [] => false
  | a :: as, b :: bs =>
    if a.toNat < b.toNat then true
    else if b.toNat < a.toNat then false
    else strLtAux as bs

def pyStrLt (a b : String) : Bool := strLtAux a.data b.data

/-- Python dataclass `Item.__lt__`: lexicographic tuple comparison of
`(name, metadata, metadata_any)` using `str`, `int` and `bool` order. -/
def itemLt (a b : Item) : Bool :=
  if pyStrLt a.name b.name then true
  else if pyStrLt b.name a.name then false
  else if a.metadata < b.metadata then true
  else if b.metadata < a.metadata then false
  else boolLt a.metadata_any b.metadata_any

/-! ### Python floats

Chances are Python floats; every float is an exact dyadic rational, and
the claims only involve chance values and comparisons where float
arithmetic is exact, so floats are embedded as exact fractions.  The
fraction is kept unnormalized (`num/den`, denominator positive for every
value the embedded code constructs) so that all operations reduce in
the kernel. -/

structure PyFloat where
  num : Int
  den : Nat := 1
deriving DecidableEq

/-- Float comparison `a <= b` (valid for positive denominators). -/
def PyFloat.le (a b : PyFloat) : Bool := a.num * (b.den : Int) ≤ b.num * (a.den : Int)

/-- Float comparison with the literal `0` (`a <= 0`). -/
def PyFloat.leZero (a : PyFloat) : Bool := a.le { num := 0 }

/-- Whether the float is exactly `0.0` (the condition for Python's
`ZeroDivisionError` on division; valid for positive denominators). -/
def PyFloat.isZero (a : PyFloat) : Bool := a.num == 0

/-- Floor division `⌊p / q⌋` (`Int.fdiv` rounds toward negative
infinity for every nonzero divisor). -/
def floorDivInt (p q : Int) : Int := Int.fdiv p q

/-- `math.ceil(a / f)` for an int `a` and a nonzero float `f`:
`a / (num/den) = a*den / num`, and `⌈p/q⌉ = -⌊-p/q⌋`. -/
def ceilIntDivFloat (a : Int) (f : PyFloat) : Int :=
  -(floorDivInt (-(a * (f.den : Int))) f.num)

/-! ### src/item_stack.py -/

structure ItemStack where
  item : Item
  amount : Int := 1
  chance : PyFloat := { num := 1 }
  consumed : Bool := true
deriving DecidableEq

/-- `ItemStack.__mul__(factor)`: `ItemStack(self.item, self.amount * factor, self.chance)`
(the `consumed` field takes its default `True`). -/
def ItemStack.mul (s : ItemStack) (factor : Int) : ItemStack :=
  { item := s.item, amount := s.amount * factor, chance := s.chance, consumed := true }

/-- `ItemStack.effective_amount`: `self.amount * self.chance`
(exact: `int * float` multiplies the numerator). -/
def ItemStack.effective_amount (s : ItemStack) : PyFloat :=
  { num := s.amount * s.chance.num, den := s.chance.den }

/-- Python dataclass `ItemStack.__eq__`: only `item` is compare-enabled
(`amount`, `chance`, `consumed` are `compare=False`). -/
def stackValueEq (a b : ItemStack) : Bool := itemEq a.item b.item

/-! ### src/inventory.py

`Inventory` is a `dict[Item, ItemStack]`; we embed it as the list of its
stacks in dict insertion order, keyed by `stack.item`. -/

abbrev Inventory := List ItemStack

/-- `Inventory.contains` / `item in self`: key lookup by `Item.__eq__`. -/
def Inventory.containsItem (inv : Inventory) (it : Item) : Bool :=
  inv.any (fun s => itemEq s.item it)

/-- `self[item]` as an `Option` (dict lookup by `Item.__eq__`). -/
def Inventory.findStack (inv : Inventory) (it : Item) : Option ItemStack :=
  inv.find? (fun s => itemEq s.item it)

/-- `Inventory.add_item_stack`: no-op on `amount <= 0`; merges the amount
into an existing entry for the same item, else inserts a new entry at the
end (dict insertion order).  Returns the updated inventory and the
`return i_stack.amount` value. -/
def Inventory.addItemStack (inv : Inventory) (s : ItemStack) : Inventory × Int :=
  if s.amount ≤ 0 then (inv, 0)
  else if inv.containsItem s.item then
    (inv.map (fun t => if itemEq t.item s.item then { t with amount := t.amount + s.amount } else t),
     s.amount)
  else (inv ++ [s], s.amount)

/-- `Inventory.sub_item_stack`: removes `min(existing.amount, stack.amount)`
from the matching entry, deletes the entry if its amount drops to `<= 0`,
and returns the amount removed (0 when the item is absent). -/
def Inventory.subItemStack (inv : Inventory) (s : ItemStack) : Inventory × Int :=
  match inv.findStack s.item with
  | none => (inv, 0)
  | some target =>
    let amt := min target.amount s.amount
    let inv1 := inv.map
      (fun t => if itemEq t.item s.item then { t with amount := t.amount - amt } else t)
    match Inventory.findStack inv1 s.item with
    | some t2 => if t2.amount ≤ 0 then (inv1.filter (fun t => !itemEq t.item s.item), amt)
                 else (inv1, amt)
    | none => (inv1, amt)

/-- Insertion step for the sorted iteration order of `Inventory.__iter__`. -/
def sortInsert (s : ItemStack) : List ItemStack → List ItemStack
  | [] => [s]
  | t :: ts => if itemLt s.item t.item then s :: t :: ts else t :: sortInsert s ts

/-- `Inventory.__iter__`: yields stacks for `sorted(self.keys())`,
i.e. sorted by the Items' dataclass order. -/
def sortStacks (inv : Inventory) : List ItemStack := inv.foldr sortInsert []

/-! ### src/recipe/recipe.py -/

structure Recipe where
  input_item_stacks : Inventory
  output_item_stacks : Inventory
  enabled : Bool := true
  priority : Int := 0
deriving DecidableEq

/-- Python dict `__eq__` between two Inventories: equal key sets and
per-key equal values, where `ItemStack.__eq__` compares items only. -/
def inventoryValueEq (a b : Inventory) : Bool :=
  a.length == b.length &&
    a.all (fun s =>
      match b.findStack s.item with
      | some t => stackValueEq s t
      | none => false)

/-- Python dataclass `Recipe.__eq__`: compares `input_item_stacks`,
`output_item_stacks` and `priority` (`enabled` is `compare=False`). -/
def recipeValueEq (a b : Recipe) : Bool :=
  inventoryValueEq a.input_item_stacks b.input_item_stacks &&
  inventoryValueEq a.output_item_stacks b.output_item_stacks &&
  a.priority == b.priority

/-- `Recipe.get_output_stack(item)`: `self.output_item_stacks[item]` as an
`Option` (a missing key would raise `KeyError` in Python). -/
def Recipe.getOutputStack (r : Recipe) (it : Item) : Option ItemStack :=
  r.output_item_stacks.findStack it

/-! ### src/recipe_mapper.py, `RecipeMapper.calculate_cost` (value semantics)

`back_table : defaultdict[Item, set[Recipe]]` becomes an association
list from items to recipe lists (a `set`'s iteration order is
implementation defined, so the list order is arbitrary input). -/

abbrev BackTable := List (Item × List Recipe)

def btFind? (bt : BackTable) (it : Item) : Option (List Recipe) :=
  (bt.find? (fun p => itemEq p.1 it)).map (fun p => p.2)

/-- Raised Python exceptions relevant to the resolver. -/
inductive PyError where
  /-- `ValueError: max() arg is an empty sequence` from line 95. -/
  | valueErrorEmptyMax : PyError
  /-- A bare `raise Exception(msg)`. -/
  | exception (msg : String) : PyError
  /-- `KeyError` from a dict subscript. -/
  | keyError : PyError
  /-- `ZeroDivisionError` from division by (float) zero. -/
  | zeroDivision : PyError
deriving DecidableEq

/-- Stable insertion step for `sorted(..., key=priority, reverse=True)`. -/
def insertByPriorityDesc (r : Recipe) : List Recipe → List Recipe
  | [] => [r]
  | t :: ts => if r.priority ≥ t.priority then r :: t :: ts else t :: insertByPriorityDesc r ts

/-- `sorted(filter(lambda r: r.enabled, ...), key=priority, reverse=True)`
is a stable descending sort by priority. -/
def sortByPriorityDesc (l : List Recipe) : List Recipe := l.foldr insertByPriorityDesc []

/-- Python `max(map(lambda r: r.priority, recipes))`: `none` on an empty
list (where Python raises `ValueError`). -/
def maxPriority : List Recipe → Option Int
  | [] => none
  | r :: rs => some (rs.foldl (fun m t => max m t.priority) r.priority)

/-- Lines 94-96 of `recipe_mapper.py`: filter to enabled recipes, sort by
priority descending, take the maximum priority (`ValueError` when the
filtered list is empty), and keep the recipes at that priority. -/
def topPriorityEnabled (l : List Recipe) : Except PyError (List Recipe) :=
  let recipes := sortByPriorityDesc (l.filter (fun r => r.enabled))
  match maxPriority recipes with
  | none => .error .valueErrorEmptyMax
  | some mp => .ok (recipes.filter (fun r => r.priority == mp))

/-- Result of running the resolver loop with a pop budget. -/
inductive RunResult where
  | ok (cost cache : Inventory) : RunResult
  | error (e : PyError) : RunResult
  | outOfFuel : RunResult
deriving DecidableEq

/-- Lines 110-120: the output loop of a chosen recipe.  Each output is
scaled by the craft count; outputs of other items merge into the cache,
and for the demanded item only the positive excess over the demanded
amount is put back (`ItemStack(item, excess)` takes default chance 1). -/
def processOutputs (outs : List ItemStack) (crafts : Int) (item : Item) (demandAmt : Int)
    (cache : Inventory) : Inventory :=
  match outs with
  | [] => cache
  | o :: rest =>
    let o2 := o.mul crafts
    if itemEq o2.item item then
      let excess := o2.amount - demandAmt
      if excess > 0 then
        processOutputs rest crafts item demandAmt
          (cache.addItemStack { item := item, amount := excess }).1
      else processOutputs rest crafts item demandAmt cache
    else processOutputs rest crafts item demandAmt (cache.addItemStack o2).1

/-- `RecipeMapper.calculate_cost`, lines 77-125, with ItemStacks as values
and an explicit pop budget (the Python loop has no iteration guard; fuel
exhaustion is reported as `outOfFuel`). -/
def calculateCostLoop (bt : BackTable) :
    Nat → List ItemStack → Inventory → Inventory → RunResult
  | _, [], cost, cache => .ok cost cache
  | 0, _ :: _, _, _ => .outOfFuel
  | fuel + 1, stack0 :: queue, cost, cache =>
    -- Ignore if it is a catalyst
    if stack0.chance.leZero then calculateCostLoop bt fuel queue cost cache
    else
      let item := stack0.item
      -- Check cache for item
      let step :=
        if cache.containsItem item then
          let sub := cache.subItemStack stack0
          ({ stack0 with amount := stack0.amount - sub.2 }, sub.1)
        else (stack0, cache)
      let stack := step.1
      let cache := step.2
      -- If satisfied, continue
      if stack.amount ≤ 0 then calculateCostLoop bt fuel queue cost cache
      else
        match btFind? bt item with
        -- no recipes: add to cost and continue
        | none => calculateCostLoop bt fuel queue (cost.addItemStack stack).1 cache
        | some l =>
          match topPriorityEnabled l with
          | .error e => .error e
          | .ok recipes =>
            match recipes with
            | [] => calculateCostLoop bt fuel queue (cost.addItemStack stack).1 cache
            | [r] =>
              match r.getOutputStack item with
              | none => .error .keyError
              | some ostack =>
                if ostack.effective_amount.isZero then .error .zeroDivision
                else
                  let crafts : Int := ceilIntDivFloat stack.amount ostack.effective_amount
                  let queue2 := queue ++ (sortStacks r.input_item_stacks).map (fun i => i.mul crafts)
                  let cache2 := processOutputs (sortStacks r.output_item_stacks) crafts item
                    stack.amount cache
                  calculateCostLoop bt fuel queue2 cost cache2
            | _ :: _ :: _ => .error (.exception "Multiple Recipes")

/-- `RecipeMapper.calculate_cost(target, cache)`: the queue is seeded with
`target.values()` in dict insertion order; `cost` starts empty. -/
def calculate_cost (bt : BackTable) (fuel : Nat) (target cache : Inventory) : RunResult :=
  calculateCostLoop bt fuel target [] cache

/-! ### src/recipe_trie.py

The node hierarchy collapses to one inductive: `BranchNode` keyed by an
Item with an ordered child list, `LeafNode` holding a Recipe.  The
`RootNode` is represented by its child list. -/

inductive TrieNode where
  | branch (item : Item) (children : List TrieNode) : TrieNode
  | leaf (recipe : Recipe) : TrieNode

abbrev RecipeTrie := List TrieNode

/-- `isinstance(child, LeafNode) and child.recipe == recipe`
(Python `Recipe.__eq__`). -/
def isLeafEq (r : Recipe) : TrieNode → Bool
  | .leaf r2 => recipeValueEq r2 r
  | .branch _ _ => false

/-- The chain of fresh `BranchNode`s (one per remaining input item)
terminating in a fresh leaf, built when `add_recipe` finds no matching
child branch. -/
def freshChain (path : List Item) (r : Recipe) : TrieNode :=
  match path with
  | [] => .leaf r
  | i :: rest => .branch i [freshChain rest r]

/-- The inner search of `add_recipe` at one level: descend into the
first child `BranchNode` whose key equals `item` (recursing there via
`recur`, the insertion for the remaining path), else append the fresh
chain as a new last child. -/
def descendWith (recur : List TrieNode → List TrieNode × Bool) (item : Item) (chain : TrieNode) :
    List TrieNode → List TrieNode × Bool
  | [] => ([chain], false)
  | c :: cs =>
    match c with
    | .branch bi sub =>
      if itemEq bi item then
        let res := recur sub
        (TrieNode.branch bi res.1 :: cs, res.2)
      else
        let res := descendWith recur item chain cs
        (c :: res.1, res.2)
    | .leaf r2 =>
      let res := descendWith recur item chain cs
      (TrieNode.leaf r2 :: res.1, res.2)

/-- `RecipeTrie.add_recipe`, walking `current_node` down the ordered
input-item path.  Returns the updated child list and whether an existing
equal leaf was returned (`true`) or a fresh leaf was created (`false`). -/
def addRecipeAux : List Item → Recipe → List TrieNode → List TrieNode × Bool
  | [], r, children =>
    -- Create leaf if it does not already exist
    if children.any (isLeafEq r) then (children, true)
    else (children ++ [.leaf r], false)
  | item :: rest, r, children =>
    descendWith (fun sub => addRecipeAux rest r sub) item (freshChain (item :: rest) r) children

/-- The ordered input-item path of a recipe:
`for stack in recipe.input_item_stacks` iterates in sorted key order. -/
def recipeInputPath (r : Recipe) : List Item :=
  (sortStacks r.input_item_stacks).map (fun s => s.item)

def RecipeTrie.add_recipe (t : RecipeTrie) (r : Recipe) : RecipeTrie × Bool :=
  addRecipeAux (recipeInputPath r) r t

/-- Observation predicate: walk the (deterministic) branch path for the
given items — descending into the first child branch with a matching
key at each step — and report whether a leaf equal to `r` hangs off the
end of the path.  Used to state the idempotence claim. -/
def findBranch? (children : List TrieNode) (item : Item) : Option (List TrieNode) :=
  match children with
  | [] => none
  | .branch bi sub :: cs => if itemEq bi item then some sub else findBranch? cs item
  | .leaf _ :: cs => findBranch? cs item

def leafAtPath (children : List TrieNode) (path : List Item) (r : Recipe) : Bool :=
  match path with
  | [] => children.any (isLeafEq r)
  | item :: rest =>
    match findBranch? children item with
    | some sub => leafAtPath sub rest r
    | none => false

/-! ### src/recipe_mapper.py, `RecipeMapper.add_recipe` -/

/-- `defaultdict[Item, set[Recipe]]` insert: `self.table[item].add(recipe)`.
Set membership uses `Recipe.__eq__`/`__hash__`. -/
def btAdd (bt : BackTable) (it : Item) (r : Recipe) : BackTable :=
  if (bt.find? (fun p => itemEq p.1 it)).isSome then
    bt.map (fun p =>
      if itemEq p.1 it then
        (p.1, if p.2.any (fun x => recipeValueEq x r) then p.2 else p.2 ++ [r])
      else p)
  else bt ++ [(it, [r])]

/-- Membership of a recipe in `table[item]` (by `Recipe.__eq__`). -/
def btMember (bt : BackTable) (it : Item) (r : Recipe) : Bool :=
  match btFind? bt it with
  | some l => l.any (fun x => recipeValueEq x r)
  | none => false

structure RecipeMapper where
  back_table : BackTable
  forward_table : BackTable
  recipe_trie : RecipeTrie

def RecipeMapper.empty : RecipeMapper :=
  { back_table := [], forward_table := [], recipe_trie := [] }

/-- `RecipeMapper.add_recipe`: link each output item to the recipe in
`back_table`, each input item in `forward_table`, then insert into the
trie.  The stack loops iterate in `Inventory.__iter__` (sorted) order.
The Python method performs no validation and cannot fail. -/
def RecipeMapper.add_recipe (m : RecipeMapper) (r : Recipe) : RecipeMapper :=
  let bt := (sortStacks r.output_item_stacks).foldl (fun acc s => btAdd acc s.item r) m.back_table
  let ft := (sortStacks r.input_item_stacks).foldl (fun acc s => btAdd acc s.item r) m.forward_table
  { back_table := bt, forward_table := ft,
    recipe_trie := (RecipeTrie.add_recipe m.recipe_trie r).1 }

/-- Whether the trie holds a leaf equal to `r` at the end of the walk of
`r`'s own ordered input-item path. -/
def trieContains (t : RecipeTrie) (r : Recipe) : Bool :=
  leafAtPath t (recipeInputPath r) r

/-! ### `RecipeMapper.calculate_cost`, reference semantics

Python ItemStacks are mutable heap objects; `queue.extend(target.values())`
aliases the target Inventory's stack objects into the work queue, and
`stack.amount -= ...` mutates them in place.  To settle the frame claim
the resolver is re-embedded with an explicit heap: stacks live in a
store addressed by allocation index, Inventories map items to store
indices, and the queue holds store indices. -/

abbrev Ref := Nat
abbrev Heap := List ItemStack
abbrev InventoryH := List (Item × Ref)

def dummyStack : ItemStack := { item := { name := "" }, amount := 0, chance := { num := 0 } }

def heapGet : Heap → Ref → ItemStack
  | [], _ => dummyStack
  | s :: _, 0 => s
  | _ :: rest, k + 1 => heapGet rest k

def heapSet : Heap → Ref → ItemStack → Heap
  | [], _, _ => []
  | _ :: rest, 0, s => s :: rest
  | t :: rest, k + 1, s => t :: heapSet rest k s

/-- Allocate a fresh ItemStack object. -/
def allocH (h : Heap) (s : ItemStack) : Heap × Ref := (h ++ [s], h.length)

def invHContains (inv : InventoryH) (it : Item) : Bool := inv.any (fun p => itemEq p.1 it)

def invHGetRef (inv : InventoryH) (it : Item) : Option Ref :=
  (inv.find? (fun p => itemEq p.1 it)).map (fun p => p.2)

/-- Dict assignment `self[item] = stack-object`. -/
def invHSet (inv : InventoryH) (it : Item) (r : Ref) : InventoryH :=
  if invHContains inv it then inv.map (fun p => if itemEq p.1 it then (p.1, r) else p)
  else inv ++ [(it, r)]

/-- Dict `pop`: remove the entry (the heap cell stays). -/
def invHPop (inv : InventoryH) (it : Item) : InventoryH :=
  inv.filter (fun p => !itemEq p.1 it)

/-- `Inventory.add_item_stack` on the heap: `sref` is the argument
object.  When an entry exists its cell's amount is incremented in place;
otherwise the dict stores the argument object itself.  The returned int
is `i_stack.amount` re-read after the mutation. -/
def addItemStackH (h : Heap) (inv : InventoryH) (sref : Ref) : Heap × InventoryH × Int :=
  let s := heapGet h sref
  if s.amount ≤ 0 then (h, inv, 0)
  else
    match invHGetRef inv s.item with
    | some tref =>
      let t := heapGet h tref
      let h2 := heapSet h tref { t with amount := t.amount + s.amount }
      (h2, inv, (heapGet h2 sref).amount)
    | none => (h, invHSet inv s.item sref, s.amount)

/-- `Inventory.sub_item_stack` on the heap: decrements the matching
entry's cell in place, popping the dict entry when the stored amount
drops to `<= 0`. -/
def subItemStackH (h : Heap) (inv : InventoryH) (sref : Ref) : Heap × InventoryH × Int :=
  let s := heapGet h sref
  match invHGetRef inv s.item with
  | none => (h, inv, 0)
  | some tref =>
    let t := heapGet h tref
    let amt := min t.amount s.amount
    let h2 := heapSet h tref { t with amount := t.amount - amt }
    let inv2 := if (heapGet h2 tref).amount ≤ 0 then invHPop inv s.item else inv
    (h2, inv2, amt)

/-- Lines 107-108 on the heap: each scaled input is a fresh object
appended to the queue. -/
def enqueueInputsH (h : Heap) (queue : List Ref) (inputs : List ItemStack) (crafts : Int) :
    Heap × List Ref :=
  match inputs with
  | [] => (h, queue)
  | i :: rest =>
    let a := allocH h (i.mul crafts)
    enqueueInputsH a.1 (queue ++ [a.2]) rest crafts

/-- Lines 110-120 on the heap: `o *= number_of_crafts` rebinds `o` to a
fresh object; `stack.amount` (the demanded amount) is re-read from the
live popped object at each use. -/
def processOutputsH (h : Heap) (cache : InventoryH) (outs : List ItemStack) (crafts : Int)
    (item : Item) (sref : Ref) : Heap × InventoryH :=
  match outs with
  | [] => (h, cache)
  | o :: rest =>
    let o2 := o.mul crafts
    if itemEq o2.item item then
      let excess := o2.amount - (heapGet h sref).amount
      if excess > 0 then
        let a := allocH h { item := item, amount := excess }
        let step := addItemStackH a.1 cache a.2
        processOutputsH step.1 step.2.1 rest crafts item sref
      else processOutputsH h cache rest crafts item sref
    else
      let a := allocH h o2
      let step := addItemStackH a.1 cache a.2
      processOutputsH step.1 step.2.1 rest crafts item sref

inductive HRunResult where
  | ok (cost cache : InventoryH) (heap : Heap) : HRunResult
  | error (e : PyError) : HRunResult
  | outOfFuel : HRunResult
deriving DecidableEq

/-- Lines 77-125 with reference semantics.  In
`stack.amount -= cache.sub_item_stack(stack)` the attribute is loaded
before the call's side effects, so the stored value is
`oldAmount - amt` even if the call mutated the same cell. -/
def calculateCostHeapLoop (bt : BackTable) :
    Nat → List Ref → InventoryH → InventoryH → Heap → HRunResult
  | _, [], cost, cache, h => .ok cost cache h
  | 0, _ :: _, _, _, _ => .outOfFuel
  | fuel + 1, sref :: queue, cost, cache, h =>
    let stack := heapGet h sref
    if stack.chance.leZero then calculateCostHeapLoop bt fuel queue cost cache h
    else
      let item := stack.item
      let step :=
        if invHContains cache item then
          let oldAmt := (heapGet h sref).amount
          let sub := subItemStackH h cache sref
          (heapSet sub.1 sref { heapGet sub.1 sref with amount := oldAmt - sub.2.2 }, sub.2.1)
        else (h, cache)
      let h := step.1
      let cache := step.2
      if (heapGet h sref).amount ≤ 0 then calculateCostHeapLoop bt fuel queue cost cache h
      else
        match btFind? bt item with
        | none =>
          let a := addItemStackH h cost sref
          calculateCostHeapLoop bt fuel queue a.2.1 cache a.1
        | some l =>
          match topPriorityEnabled l with
          | .error e => .error e
          | .ok recipes =>
            match recipes with
            | [] =>
              let a := addItemStackH h cost sref
              calculateCostHeapLoop bt fuel queue a.2.1 cache a.1
            | [r] =>
              match r.getOutputStack item with
              | none => .error .keyError
              | some ostack =>
                if ostack.effective_amount.isZero then .error .zeroDivision
                else
                  let crafts : Int := ceilIntDivFloat (heapGet h sref).amount ostack.effective_amount
                  let enq := enqueueInputsH h queue (sortStacks r.input_item_stacks) crafts
                  let pro := processOutputsH enq.1 cache (sortStacks r.output_item_stacks) crafts
                    item sref
                  calculateCostHeapLoop bt fuel enq.2 cost pro.2 pro.1
            | _ :: _ :: _ => .error (.exception "Multiple Recipes")

/-- `calculate_cost` with reference semantics: the queue is seeded with
the target dict's stack object references in insertion order. -/
def calculate_cost_heap (bt : BackTable) (fuel : Nat) (target cache : InventoryH) (h : Heap) :
    HRunResult :=
  calculateCostHeapLoop bt fuel (target.map (fun p => p.2)) [] cache h

/-! ### src/craftingCalc.py (legacy generation)

The single-output DFS resolver `Ingredient.get_net_cost` and its depth
guard (`MAX_DEPTH = 1000`, raising `RecursionDepthError`).  Objects are
embedded as trees (a cyclic object graph has no inductive value; the
guard is checked before any recursion, so the theorems about it hold
regardless). -/

mutual
inductive LItem where
  | mk (name : String) (recipe : Option LRecipe) : LItem
inductive LIngredient where
  | mk (item : LItem) (amount : Int) (enabled : Bool) : LIngredient
inductive LRecipe where
  | mk (output : LIngredient) (inputs : List LIngredient) (enabled : Bool) : LRecipe
end

def LItem.name : LItem → String
  | .mk n _ => n

def LItem.itemRecipe : LItem → Option LRecipe
  | .mk _ r => r

def LIngredient.item : LIngredient → LItem
  | .mk i _ _ => i

def LIngredient.amount : LIngredient → Int
  | .mk _ a _ => a

def LIngredient.enabled : LIngredient → Bool
  | .mk _ _ e => e

def LRecipe.output : LRecipe → LIngredient
  | .mk o _ _ => o

def LRecipe.inputs : LRecipe → List LIngredient
  | .mk _ i _ => i

def LRecipe.enabled : LRecipe → Bool
  | .mk _ _ e => e

/-- The `Ingredient.recipe` property: `self.enabled` is a bool (never
`None`), so it always returns `self.item.recipe`. -/
def LIngredient.recipe (ing : LIngredient) : Option LRecipe := ing.item.itemRecipe

inductive LegacyError where
  | recursionDepth : LegacyError
  | zeroDivision : LegacyError
deriving DecidableEq

/-- `Ingredient.MAX_DEPTH`. -/
def MAX_DEPTH : Nat := 1000

/-- One entry-merge of the result dict (keys compare by `Item.__eq__`,
i.e. by name): skip disabled, default-insert `Ingredient(item, 0)`,
then `result[item] += ingredient` via `Ingredient.__add__` (which
returns `Ingredient(self.item, self.amount + other.amount)`, with
`enabled` back to its default `True`). -/
def mergeEntry (res : List (LItem × LIngredient)) (it : LItem) (ing : LIngredient) :
    List (LItem × LIngredient) :=
  if ing.enabled = false then res
  else
    let res1 :=
      if (res.find? (fun p => p.1.name == it.name)).isSome then res
      else res ++ [(it, LIngredient.mk it 0 true)]
    res1.map (fun p =>
      if p.1.name == it.name then (p.1, LIngredient.mk p.2.item (p.2.amount + ing.amount) true)
      else p)

mutual

/-- `Ingredient.get_net_cost(numRecipes, depth)`: raises
`RecursionDepthError` past `MAX_DEPTH`, returns `{item: numRecipes}`
when no usable recipe applies, else recurses into the recipe's inputs
scaled by `ceil(numRecipes / output.amount)` (a `ZeroDivisionError`
when the output amount is 0). -/
def getNetCost (ing : LIngredient) (numRecipes : Int) (depth : Nat) :
    Except LegacyError (List (LItem × LIngredient)) :=
  if h : MAX_DEPTH < depth then .error .recursionDepth
  else
    if ing.enabled = false then .ok [(ing.item, LIngredient.mk ing.item numRecipes true)]
    else
      match ing.recipe with
      | none => .ok [(ing.item, LIngredient.mk ing.item numRecipes true)]
      | some r =>
        if r.enabled = false then .ok [(ing.item, LIngredient.mk ing.item numRecipes true)]
        else if r.output.amount = 0 then .error .zeroDivision
        else
          let factor := ceilIntDivFloat numRecipes { num := r.output.amount }
          goInputs r.inputs factor (depth + 1) []
termination_by (1002 - depth, 0)
decreasing_by
  simp only [MAX_DEPTH] at h
  apply Prod.Lex.left
  omega

/-- The `for inp in self.recipe.inputs` loop: each input's net cost is
computed at the child depth (the parent's `depth + 1`, which this
function receives directly) and merged into the running result dict. -/
def goInputs (inps : List LIngredient) (factor : Int) (depth : Nat)
    (res : List (LItem × LIngredient)) : Except LegacyError (List (LItem × LIngredient)) :=
  match inps with
  | [] => .ok res
  | inp :: rest =>
    match getNetCost inp (inp.amount * factor) depth with
    | .error e => .error e
    | .ok sub => goInputs rest factor depth (sub.foldl (fun acc p => mergeEntry acc p.1 p.2) res)
termination_by (1002 - depth, inps.length + 1)
decreasing_by
  · apply Prod.Lex.right
    omega
  · apply Prod.Lex.right
    simp only [List.length_cons]
    omega

end

/-! ### Substring test (for stating what an error message does not name) -/

def startsWithChars : List Char → List Char → Bool
  | _, [] => true
  | [], _ :: _ => false
  | a :: as, b :: bs => a == b && startsWithChars as bs

def containsChars : List Char → List Char → Bool
  | [], needle => startsWithChars [] needle
  | a :: rest, needle => startsWithChars (a :: rest) needle || containsChars rest needle

def strContainsSub (hay needle : String) : Bool := containsChars hay.data needle.data

/-! ### Concrete scenario data used by the claims -/

def wood_log : Item := { name := "wood_log" }
def wood_plank : Item := { name := "wood_plank" }
def wood_pulp : Item := { name := "wood_pulp" }

/-- `wood_log -> wood_plank:4`, priority 0. -/
def recipePlank4 : Recipe :=
  { input_item_stacks := [{ item := wood_log }]
    output_item_stacks := [{ item := wood_plank, amount := 4 }] }

/-- `wood_log -> wood_plank:6 + wood_pulp:1`, priority 1. -/
def recipePlank6 : Recipe :=
  { input_item_stacks := [{ item := wood_log }]
    output_item_stacks := [{ item := wood_plank, amount := 6 }, { item := wood_pulp, amount := 1 }]
    priority := 1 }

/-- The producers map built from the two plank recipes (C1; the order
recipes appear inside a producer set is implementation defined, so both
orders are checked). -/
def btWood : BackTable := [(wood_plank, [recipePlank4, recipePlank6]), (wood_pulp, [recipePlank6])]

def btWoodSwapped : BackTable :=
  [(wood_plank, [recipePlank6, recipePlank4]), (wood_pulp, [recipePlank6])]

def iron_plate : Item := { name := "iron_plate" }
def iron_ore : Item := { name := "iron_ore" }
def iron_ingot : Item := { name := "iron_ingot" }

/-- An enabled priority-0 recipe for iron_plate (C4 scenario). -/
def recipePlateFromIngot : Recipe :=
  { input_item_stacks := [{ item := iron_ingot }]
    output_item_stacks := [{ item := iron_plate }] }

/-- A second enabled priority-0 recipe for iron_plate (C4 scenario). -/
def recipePlateFromOre : Recipe :=
  { input_item_stacks := [{ item := iron_ore, amount := 2 }]
    output_item_stacks := [{ item := iron_plate }] }

/-- A disabled recipe for iron_plate (C5 scenario). -/
def recipePlateDisabled : Recipe :=
  { input_item_stacks := [{ item := iron_ore }]
    output_item_stacks := [{ item := iron_plate }]
    enabled := false }

/-- Cyclic pair (C3): `a -> b` and `b -> a`. -/
def itemA : Item := { name := "a" }
def itemB : Item := { name := "b" }

def recipeAtoB : Recipe :=
  { input_item_stacks := [{ item := itemA }], output_item_stacks := [{ item := itemB }] }

def recipeBtoA : Recipe :=
  { input_item_stacks := [{ item := itemB }], output_item_stacks := [{ item := itemA }] }

def btCyclic : BackTable := [(itemA, [recipeBtoA]), (itemB, [recipeAtoB])]

def stackA : ItemStack := { item := itemA }
def stackB : ItemStack := { item := itemB }

/-- Nether star pair (C2): `tiny_nether_star_dust:9 -> nether_star` and
`nether_star -> tiny_nether_star_dust:9`. -/
def tiny_dust : Item := { name := "tiny_nether_star_dust" }
def nether_star : Item := { name := "nether_star" }

def recipeDustToStar : Recipe :=
  { input_item_stacks := [{ item := tiny_dust, amount := 9 }]
    output_item_stacks := [{ item := nether_star }] }

def recipeStarToDust : Recipe :=
  { input_item_stacks := [{ item := nether_star }]
    output_item_stacks := [{ item := tiny_dust, amount := 9 }] }

def catalyst_item : Item := { name := "catalyst_item" }

/-- `catalyst_item:5:0.0` (C6 scenario). -/
def catalystStack : ItemStack := { item := catalyst_item, amount := 5, chance := { num := 0 } }

/-- A recipe whose output stack for its product has chance 0 (C10):
`stick -> gear:1:0.0`. -/
def gear : Item := { name := "gear" }
def stick : Item := { name := "stick" }

def recipeGearZeroChance : Recipe :=
  { input_item_stacks := [{ item := stick }]
    output_item_stacks := [{ item := gear, amount := 1, chance := { num := 0 } }] }

/-! ## Helper lemmas -/

theorem strLtAux_self : ∀ l : List Char, strLtAux l l = false := by
  intro l
  induction l with
  | nil => rfl
  | cons a as ih => simp [strLtAux, ih]

theorem itemEq_refl (a : Item) : itemEq a a = true := by
  simp [itemEq]

/-! ## Claims -/

/-- Claim C1: for the recipe database with `wood_log -> wood_plank:4`
(priority 0) and `wood_log -> wood_plank:6 + wood_pulp:1` (priority 1),
resolving the target `{wood_plank: 64}` with an empty cache selects the
priority-1 recipe, computes `ceil(64/6) = 11` crafts, and returns
`cost = {wood_log: 11}` and `leftover = {wood_pulp: 11, wood_plank: 2}`
(checked for both iteration orders of the producer set). -/
theorem C1_wood_plank_resolution :
    topPriorityEnabled [recipePlank4, recipePlank6] = .ok [recipePlank6] ∧
    topPriorityEnabled [recipePlank6, recipePlank4] = .ok [recipePlank6] ∧
    ceilIntDivFloat 64 (ItemStack.effective_amount { item := wood_plank, amount := 6 }) = 11 ∧
    calculate_cost btWood 20 [{ item := wood_plank, amount := 64 }] [] =
      .ok [{ item := wood_log, amount := 11 }]
        [{ item := wood_plank, amount := 2 }, { item := wood_pulp, amount := 11 }] ∧
    calculate_cost btWoodSwapped 20 [{ item := wood_plank, amount := 64 }] [] =
      .ok [{ item := wood_log, amount := 11 }]
        [{ item := wood_plank, amount := 2 }, { item := wood_pulp, amount := 11 }] :=
  ⟨rfl, rfl, rfl, by decide, by decide⟩

/-- Claim C6: a popped demand stack whose chance is `<= 0` (a pure
catalyst demand) is discarded: processing it contributes nothing to
cost, cache/leftover, or the rest of the queue. -/
theorem C6_catalyst_discarded (bt : BackTable) (fuel : Nat) (s : ItemStack)
    (queue : List ItemStack) (cost cache : Inventory)
    (h : s.chance.leZero = true) :
    calculateCostLoop bt (fuel + 1) (s :: queue) cost cache =
      calculateCostLoop bt fuel queue cost cache := by
  simp [calculateCostLoop, h]

/-- Witness for C6 at the spec's `catalyst_item:5:0.0` scenario: the
catalyst demand is discarded and an otherwise-empty resolution returns
empty cost and leftovers. -/
theorem C6_catalyst_discarded_witness :
    calculateCostLoop [] 1 [catalystStack] [] [] = calculateCostLoop [] 0 [] [] [] ∧
    calculateCostLoop [] 0 [] [] [] = RunResult.ok [] [] :=
  ⟨C6_catalyst_discarded [] 0 catalystStack [] [] [] (by decide), rfl⟩

/-- Claim C5 (code bug): when the demanded item has producers but every
one is disabled, line 95's `max()` runs on an empty sequence and raises
`ValueError` — the `len(recipes) == 0` branch below it, which would add
the demand to cost, is unreachable. -/
theorem C5_all_disabled_raises_value_error :
    calculate_cost [(iron_plate, [recipePlateDisabled])] 1
      [{ item := iron_plate, amount := 1 }] [] = .error .valueErrorEmptyMax := by
  decide

/-- Claim C8 counterexample: `metadata_any` lacks `compare=False`, so two
Items with equal name and metadata but different wildcard flags are not
equal, and the non-wildcard one orders strictly first — refuting that
`(name, metadata)` alone determine equality and ordering. -/
theorem C8_counterexample :
    itemEq { name := "iron_ingot" } { name := "iron_ingot", metadata_any := true } = false ∧
    itemLt { name := "iron_ingot" } { name := "iron_ingot", metadata_any := true } = true := by
  decide

/-- Claim C8 amended: equality and ordering are determined by
`(name, metadata, metadata_any)`: display names (`proper_name`) never
participate, Items agreeing on those three fields are equal and neither
orders before the other, and Items differing only in `metadata_any` are
unequal, the non-wildcard one ordering first. -/
theorem C8_eq_order_by_name_metadata_wildcard (n : String) (m : Int) (w : Bool)
    (p1 p2 : Option String) :
    itemEq { name := n, metadata := m, proper_name := p1, metadata_any := w }
      { name := n, metadata := m, proper_name := p2, metadata_any := w } = true ∧
    itemLt { name := n, metadata := m, proper_name := p1, metadata_any := w }
      { name := n, metadata := m, proper_name := p2, metadata_any := w } = false ∧
    itemLt { name := n, metadata := m, proper_name := p1, metadata_any := false }
      { name := n, metadata := m, proper_name := p2, metadata_any := true } = true ∧
    itemEq { name := n, metadata := m, proper_name := p1, metadata_any := false }
      { name := n, metadata := m, proper_name := p2, metadata_any := true } = false := by
  refine ⟨?_, ?_, ?_, ?_⟩
  · simp [itemEq]
  · simp [itemLt, pyStrLt, strLtAux_self, boolLt]
  · simp [itemLt, pyStrLt, strLtAux_self, boolLt]
  · simp [itemEq]

/-- Claim C4 counterexample: two enabled priority-0 producers of
iron_plate make any iron_plate demand raise — but the raised error is
the generic `Exception("Multiple Recipes")`: its constant message names
neither the demanded item nor the tied recipes (no
`AmbiguousRecipeError` exists in the program). -/
theorem C4_counterexample :
    calculate_cost [(iron_plate, [recipePlateFromIngot, recipePlateFromOre])] 1
      [{ item := iron_plate, amount := 1 }] [] = .error (.exception "Multiple Recipes") ∧
    strContainsSub "Multiple Recipes" "iron_plate" = false := by
  decide

/-- Claim C4 amended: whenever the demanded item's enabled producers tie
at maximum priority (two or more survive the priority filter), the whole
resolution aborts with the generic `Exception("Multiple Recipes")` — a
hard stop with no heuristic pick and no partial result, but carrying
only that constant message rather than naming the item or recipes. -/
theorem C4_priority_tie_hard_stop (bt : BackTable) (fuel : Nat) (s : ItemStack)
    (queue : List ItemStack) (cost cache : Inventory) (l : List Recipe)
    (r1 r2 : Recipe) (rest : List Recipe)
    (hchance : s.chance.leZero = false)
    (hcache : cache.containsItem s.item = false)
    (hamt : 0 < s.amount)
    (hbt : btFind? bt s.item = some l)
    (htop : topPriorityEnabled l = .ok (r1 :: r2 :: rest)) :
    calculateCostLoop bt (fuel + 1) (s :: queue) cost cache =
      .error (.exception "Multiple Recipes") := by
  have hA : ¬ s.amount ≤ 0 := by omega
  simp [calculateCostLoop, hchance, hcache, hbt, htop, hA]

/-- Witness for C4 at the spec's scenario: two enabled priority-0
iron_plate recipes, demand iron_plate:2. -/
theorem C4_priority_tie_hard_stop_witness :
    calculateCostLoop [(iron_plate, [recipePlateFromIngot, recipePlateFromOre])] 1
      [{ item := iron_plate, amount := 2 }] [] [] =
      .error (.exception "Multiple Recipes") :=
  C4_priority_tie_hard_stop [(iron_plate, [recipePlateFromIngot, recipePlateFromOre])] 0
    { item := iron_plate, amount := 2 } [] [] [] [recipePlateFromIngot, recipePlateFromOre]
    recipePlateFromIngot recipePlateFromOre [] (by decide) (by decide) (by decide)
    (by decide) rfl

/-- Claim C10: when the single selected enabled top-priority recipe's
output stack for the demanded item has `effective_amount` 0 (e.g. an
output with chance 0), the craft-count division
`stack.amount / output_stack.effective_amount` raises
`ZeroDivisionError` — no result and none of the program's other error
kinds. -/
theorem C10_zero_effective_amount_division (bt : BackTable) (fuel : Nat) (s : ItemStack)
    (queue : List ItemStack) (cost cache : Inventory) (l : List Recipe) (r : Recipe)
    (o : ItemStack)
    (hchance : s.chance.leZero = false)
    (hcache : cache.containsItem s.item = false)
    (hamt : 0 < s.amount)
    (hbt : btFind? bt s.item = some l)
    (htop : topPriorityEnabled l = .ok [r])
    (hout : r.getOutputStack s.item = some o)
    (heff : o.effective_amount.isZero = true) :
    calculateCostLoop bt (fuel + 1) (s :: queue) cost cache = .error .zeroDivision := by
  have hA : ¬ s.amount ≤ 0 := by omega
  simp [calculateCostLoop, hchance, hcache, hbt, htop, hout, heff, hA]

/-- Witness for C10: demanding `gear` whose only recipe outputs
`gear:1:0.0`. -/
theorem C10_zero_effective_amount_division_witness :
    calculateCostLoop [(gear, [recipeGearZeroChance])] 1 [{ item := gear, amount := 3 }] [] [] =
      .error .zeroDivision :=
  C10_zero_effective_amount_division [(gear, [recipeGearZeroChance])] 0
    { item := gear, amount := 3 } [] [] [] [recipeGearZeroChance] recipeGearZeroChance
    { item := gear, amount := 1, chance := { num := 0 } } (by decide) (by decide) (by decide)
    (by decide) rfl (by decide) (by decide)

/-- One pop on the cyclic database turns a demand for `a` into a demand
for `b` with unchanged cost and cache. -/
theorem cyclicStepA (n : Nat) :
    calculateCostLoop btCyclic (n + 1) [stackA] [] [] = calculateCostLoop btCyclic n [stackB] [] [] :=
  rfl

/-- One pop on the cyclic database turns a demand for `b` back into a
demand for `a` with unchanged cost and cache. -/
theorem cyclicStepB (n : Nat) :
    calculateCostLoop btCyclic (n + 1) [stackB] [] [] = calculateCostLoop btCyclic n [stackA] [] [] :=
  rfl

/-- The cyclic resolution never finishes and never raises, for any pop
budget. -/
theorem cyclicLoopForever :
    ∀ n : Nat, calculateCostLoop btCyclic n [stackA] [] [] = .outOfFuel ∧
      calculateCostLoop btCyclic n [stackB] [] [] = .outOfFuel := by
  intro n
  induction n with
  | zero => exact ⟨rfl, rfl⟩
  | succ n ih => exact ⟨(cyclicStepA n).trans ih.2, (cyclicStepB n).trans ih.1⟩

/-- Claim C3 counterexample: on the cyclic database `a -> b`, `b -> a`,
resolving the demand `a:1` performs 1001 queue pops — beyond the claimed
fixed 1000-pop maximum — without terminating and without raising any
error (no depth guard and no `RecipeDepthError` exist in
`calculate_cost`). -/
theorem C3_counterexample :
    calculateCostLoop btCyclic 1001 [stackA] [] [] = RunResult.outOfFuel :=
  (cyclicLoopForever 1001).1

/-- Claim C3 amended: only the legacy DFS resolver
`craftingCalc.Ingredient.get_net_cost` has an iteration guard: called at
any depth beyond `MAX_DEPTH = 1000` it raises `RecursionDepthError`
(so its recursion depth is bounded); the queue-based
`recipe_mapper.calculate_cost` has no pop bound and need not terminate. -/
theorem C3_legacy_depth_guard (ing : LIngredient) (numRecipes : Int) (depth : Nat)
    (h : MAX_DEPTH < depth) :
    getNetCost ing numRecipes depth = .error .recursionDepth := by
  rw [getNetCost]
  simp [h]

/-- Witness for C3's amended claim at depth 1001. -/
theorem C3_legacy_depth_guard_witness :
    getNetCost (LIngredient.mk (LItem.mk "x" none) 1 true) 1 1001 =
      .error .recursionDepth :=
  C3_legacy_depth_guard (LIngredient.mk (LItem.mk "x" none) 1 true) 1 1001 (by decide)

theorem itemEq_iff {a b : Item} :
    itemEq a b = true ↔ a.name = b.name ∧ a.metadata = b.metadata ∧
      a.metadata_any = b.metadata_any := by
  simp [itemEq, and_assoc]

theorem inventoryValueEq_refl (inv : Inventory) : inventoryValueEq inv inv = true := by
  rw [inventoryValueEq]
  simp only [beq_self_eq_true, Bool.true_and, List.all_eq_true]
  intro s hs
  have hsome : (inv.find? (fun t => itemEq t.item s.item)).isSome := by
    rw [List.find?_isSome]
    exact ⟨s, hs, itemEq_refl s.item⟩
  obtain ⟨t, ht⟩ := Option.isSome_iff_exists.mp hsome
  have hkey : itemEq t.item s.item = true := by
    have hp := List.find?_some ht
    simpa using hp
  rw [Inventory.findStack, ht]
  show stackValueEq s t = true
  rw [stackValueEq, itemEq_iff]
  obtain ⟨h1, h2, h3⟩ := itemEq_iff.mp hkey
  exact ⟨h1.symm, h2.symm, h3.symm⟩

theorem recipeValueEq_refl (r : Recipe) : recipeValueEq r r = true := by
  simp [recipeValueEq, inventoryValueEq_refl]

/-- The `btAdd` entry-mapper preserves keys, so a `find?` by key over the
mapped table is the mapped `find?` over the original. -/
theorem find?_btAdd_map (bt : BackTable) (it0 it : Item) (r : Recipe) :
    (bt.map (fun p =>
        if itemEq p.1 it then
          (p.1, if p.2.any (fun x => recipeValueEq x r) then p.2 else p.2 ++ [r])
        else p)).find? (fun p => itemEq p.1 it0) =
      (bt.find? (fun p => itemEq p.1 it0)).map (fun p =>
        if itemEq p.1 it then
          (p.1, if p.2.any (fun x => recipeValueEq x r) then p.2 else p.2 ++ [r])
        else p) := by
  induction bt with
  | nil => rfl
  | cons e rest ih =>
    rcases e with ⟨k, l⟩
    cases hq : itemEq k it <;> cases hp : itemEq k it0 <;>
      simp only [List.map_cons, List.find?_cons, hq, hp, Bool.false_eq_true, if_false,
        if_true, eq_self_iff_true, Option.map_some', ih]

/-- Adding `r` under key `it` makes `r` a member of `table[it]`. -/
theorem btAdd_member_self (bt : BackTable) (it : Item) (r : Recipe) :
    btMember (btAdd bt it r) it r = true := by
  rw [btAdd]
  by_cases hs : (bt.find? (fun p => itemEq p.1 it)).isSome
  · rw [if_pos hs]
    obtain ⟨e, he⟩ := Option.isSome_iff_exists.mp hs
    have hkey : itemEq e.1 it = true := by
      have hp := List.find?_some he
      simpa using hp
    rw [btMember, btFind?, find?_btAdd_map, he]
    simp only [Option.map_some', hkey, if_pos]
    by_cases hl : e.2.any (fun x => recipeValueEq x r) = true
    · simp [hl]
    · simp [hl, List.any_append, recipeValueEq_refl]
  · rw [if_neg hs]
    have hnone : bt.find? (fun p => itemEq p.1 it) = none := by
      cases hfind : bt.find? (fun p => itemEq p.1 it) with
      | none => rfl
      | some x => rw [hfind] at hs; simp at hs
    rw [btMember, btFind?, List.find?_append, hnone, Option.none_or]
    simp [List.find?_cons, itemEq_refl, recipeValueEq_refl]

/-- `btAdd` never removes a member from any bucket. -/
theorem btMember_btAdd_mono (bt : BackTable) (it it0 : Item) (r r0 : Recipe)
    (h : btMember bt it0 r0 = true) : btMember (btAdd bt it r) it0 r0 = true := by
  rw [btMember, btFind?] at h
  cases hraw : bt.find? (fun p => itemEq p.1 it0) with
  | none => rw [hraw] at h; simp at h
  | some e =>
    rw [hraw] at h
    simp only [Option.map_some'] at h
    rw [btAdd]
    by_cases hs : (bt.find? (fun p => itemEq p.1 it)).isSome
    · rw [if_pos hs]
      rw [btMember, btFind?, find?_btAdd_map, hraw]
      simp only [Option.map_some']
      by_cases hk : itemEq e.1 it = true
      · simp only [hk, if_pos]
        by_cases hl : e.2.any (fun x => recipeValueEq x r) = true
        · simpa [hl] using h
        · simp only [hl]
          simp only [Bool.false_eq_true, if_false, List.any_append]
          simp only [h, Bool.true_or]
      · simp only [hk, Bool.false_eq_true, if_false]
        exact h
    · rw [if_neg hs]
      rw [btMember, btFind?, List.find?_append, hraw]
      simpa using h

/-- Folding `btAdd` over a stack list preserves existing members. -/
theorem foldl_btAdd_mono (stackList : List ItemStack) (r : Recipe) (bt : BackTable)
    (it0 : Item) (r0 : Recipe) (h : btMember bt it0 r0 = true) :
    btMember (stackList.foldl (fun acc s => btAdd acc s.item r) bt) it0 r0 = true := by
  induction stackList generalizing bt with
  | nil => exact h
  | cons s rest ih => exact ih (btAdd bt s.item r) (btMember_btAdd_mono bt s.item it0 r r0 h)

/-- Folding `btAdd` over a stack list registers `r` under every stack's
item. -/
theorem foldl_btAdd_member (stackList : List ItemStack) (r : Recipe) (bt : BackTable)
    (st : ItemStack) (h : st ∈ stackList) :
    btMember (stackList.foldl (fun acc s => btAdd acc s.item r) bt) st.item r = true := by
  induction stackList generalizing bt with
  | nil => cases h
  | cons s rest ih =>
    cases h with
    | head =>
      exact foldl_btAdd_mono rest r (btAdd bt st.item r) st.item r
        (btAdd_member_self bt st.item r)
    | tail _ h2 => exact ih (btAdd bt s.item r) h2

/-- Claim C2 counterexample: registering the mutually recursive pair
`tiny_nether_star_dust:9 -> nether_star` and
`nether_star -> tiny_nether_star_dust:9` — in either order — succeeds:
both recipes end up linked in the producers table and stored in the
trie, and no error of any kind is raised (neither `Recipe` construction
nor `add_recipe` performs cycle validation; `RecursiveRecipeError` is
declared in the legacy generation but never raised). -/
theorem C2_counterexample :
    (let m := RecipeMapper.add_recipe (RecipeMapper.add_recipe RecipeMapper.empty
        recipeDustToStar) recipeStarToDust
     btMember m.back_table nether_star recipeDustToStar = true ∧
     btMember m.back_table tiny_dust recipeStarToDust = true ∧
     trieContains m.recipe_trie recipeDustToStar = true ∧
     trieContains m.recipe_trie recipeStarToDust = true) ∧
    (let m := RecipeMapper.add_recipe (RecipeMapper.add_recipe RecipeMapper.empty
        recipeStarToDust) recipeDustToStar
     btMember m.back_table nether_star recipeDustToStar = true ∧
     btMember m.back_table tiny_dust recipeStarToDust = true ∧
     trieContains m.recipe_trie recipeDustToStar = true ∧
     trieContains m.recipe_trie recipeStarToDust = true) := by
  decide

/-- Claim C2 amended: registering any recipe — including one forming a
transitive input cycle with recipes already registered — never fails:
`RecipeMapper.add_recipe` is total and links the recipe under every one
of its output items in the producers table. -/
theorem C2_registration_always_succeeds (m : RecipeMapper) (r : Recipe) (st : ItemStack)
    (h : st ∈ sortStacks r.output_item_stacks) :
    btMember (RecipeMapper.add_recipe m r).back_table st.item r = true := by
  rw [RecipeMapper.add_recipe]
  exact foldl_btAdd_member (sortStacks r.output_item_stacks) r m.back_table st h

/-- Witness for C2's amended claim: the second recipe of the recursive
nether-star pair registers cleanly on top of the first. -/
theorem C2_registration_always_succeeds_witness :
    btMember (RecipeMapper.add_recipe
        (RecipeMapper.add_recipe RecipeMapper.empty recipeDustToStar)
        recipeStarToDust).back_table tiny_dust recipeStarToDust = true :=
  C2_registration_always_succeeds
    (RecipeMapper.add_recipe RecipeMapper.empty recipeDustToStar) recipeStarToDust
    { item := tiny_dust, amount := 9 } (by decide)

/-- When a leaf equal to `r` already hangs at the end of the walked
path, the per-level search finds the first matching branch, recurses,
and rebuilds the children unchanged. -/
theorem descendWith_existing (recur : List TrieNode → List TrieNode × Bool) (item : Item)
    (chain : TrieNode) (rest : List Item) (r : Recipe)
    (hrec : ∀ sub, leafAtPath sub rest r = true → recur sub = (sub, true)) :
    ∀ children, leafAtPath children (item :: rest) r = true →
      descendWith recur item chain children = (children, true) := by
  intro children
  induction children with
  | nil =>
    intro h
    rw [leafAtPath, findBranch?] at h
    simp at h
  | cons c cs ih =>
    intro h
    cases c with
    | branch bi sub =>
      by_cases hbi : itemEq bi item = true
      · rw [leafAtPath, findBranch?, if_pos hbi] at h
        rw [descendWith]
        simp only [hbi, if_pos]
        rw [hrec sub h]
      · rw [leafAtPath, findBranch?, if_neg hbi] at h
        rw [descendWith]
        simp only [hbi, Bool.false_eq_true, if_false]
        have h2 : leafAtPath cs (item :: rest) r = true := by rw [leafAtPath]; exact h
        rw [ih h2]
    | leaf r2 =>
      rw [leafAtPath, findBranch?] at h
      rw [descendWith]
      have h2 : leafAtPath cs (item :: rest) r = true := by rw [leafAtPath]; exact h
      rw [ih h2]

/-- Insertion along a path whose end already holds an equal leaf
returns the existing leaf and leaves every level unchanged. -/
theorem addRecipeAux_existing (r : Recipe) :
    ∀ (path : List Item) (children : List TrieNode),
      leafAtPath children path r = true → addRecipeAux path r children = (children, true) := by
  intro path
  induction path with
  | nil =>
    intro children h
    rw [leafAtPath] at h
    rw [addRecipeAux, if_pos h]
  | cons item rest ih =>
    intro children h
    rw [addRecipeAux]
    exact descendWith_existing (fun sub => addRecipeAux rest r sub) item
      (freshChain (item :: rest) r) rest r (fun sub hs => ih sub hs) children h

/-- Claim C9: `add_recipe` is idempotent on value-equal recipes: if a
leaf holding a recipe equal to `r` (by `Recipe.__eq__`) already exists
at the end of `r`'s ordered input-item path, `add_recipe(r)` returns
that existing leaf (`true`) and the trie is unchanged — no duplicate
leaf or branch is created. -/
theorem C9_add_recipe_idempotent (t : RecipeTrie) (r : Recipe)
    (h : trieContains t r = true) :
    RecipeTrie.add_recipe t r = (t, true) := by
  rw [trieContains] at h
  rw [RecipeTrie.add_recipe]
  exact addRecipeAux_existing r (recipeInputPath r) t h

/-- Witness for C9: inserting the plank recipe twice returns the
existing leaf the second time and leaves the trie unchanged. -/
theorem C9_add_recipe_idempotent_witness :
    RecipeTrie.add_recipe (RecipeTrie.add_recipe [] recipePlank6).1 recipePlank6 =
      ((RecipeTrie.add_recipe [] recipePlank6).1, true) :=
  C9_add_recipe_idempotent (RecipeTrie.add_recipe [] recipePlank6).1 recipePlank6 (by decide)

def alpha : Item := { name := "alpha" }

/-- Claim C7 counterexample: resolving target `{alpha: 5}` against cache
`{alpha: 3}` mutates the target inventory's own stack object — the queue
aliases it, and the cache-subtraction step stores `5 - 3 = 2` into it —
so the target inventory (entry `(alpha, ref 0)` into the final heap) no
longer holds amount 5 after `calculate_cost` returns. -/
theorem C7_counterexample :
    calculate_cost_heap [] 2 [(alpha, 0)] [(alpha, 1)]
      [{ item := alpha, amount := 5 }, { item := alpha, amount := 3 }] =
      HRunResult.ok [(alpha, 0)] []
        [{ item := alpha, amount := 2 }, { item := alpha, amount := 0 }] ∧
    heapGet [{ item := alpha, amount := 2 }, { item := alpha, amount := 0 }] 0 ≠
      heapGet [{ item := alpha, amount := 5 }, { item := alpha, amount := 3 }] 0 := by
  decide

/-- Claim C7 amended: `calculate_cost` reads the recipe index and
mutates its local cost and the caller's cache — but the target
inventory's ItemStack objects are aliased into the work queue and
mutated in place: for any target `{alpha: n}` and cache `{alpha: m}`
with `0 < m < n`, the run returns cost `{alpha: n-m}` through the
target's own cell, whose stored amount drops from `n` to `n - m`. -/
theorem C7_target_stack_mutated (fuel : Nat) (n m : Int) (_hm : 0 < m) (h2 : m < n) :
    calculate_cost_heap [] (fuel + 1) [(alpha, 0)] [(alpha, 1)]
      [{ item := alpha, amount := n }, { item := alpha, amount := m }] =
      HRunResult.ok [(alpha, 0)] []
        [{ item := alpha, amount := n - m }, { item := alpha, amount := 0 }] := by
  have hmin : min m n = m := min_eq_left (le_of_lt h2)
  have hnm : ¬(n - m ≤ 0) := by omega
  simp [calculate_cost_heap, calculateCostHeapLoop, heapGet, heapSet, subItemStackH,
    addItemStackH, invHContains, invHGetRef, invHSet, invHPop, btFind?, PyFloat.leZero,
    PyFloat.le, itemEq, hmin, hnm]

/-- Witness for C7's amended claim at `n = 5`, `m = 3`. -/
theorem C7_target_stack_mutated_witness :
    calculate_cost_heap [] 1 [(alpha, 0)] [(alpha, 1)]
      [{ item := alpha, amount := 5 }, { item := alpha, amount := 3 }] =
      HRunResult.ok [(alpha, 0)] []
        [{ item := alpha, amount := 5 - 3 }, { item := alpha, amount := 0 }] :=
  C7_target_stack_mutated 0 5 3 (by decide) (by decide)

end CraftCalc
